import Mathlib

/-!
Verification of the `ceam` configuration tree (`src/ceam/config_tree.py`) and
event framework (`src/ceam/framework/event.py`) against their specification.

The Python classes are shallowly embedded as pure Lean data with explicit
state passing; Python exceptions are modelled by `Except PyErr`.  The spec's
error kinds map to Python exception classes as follows:
  NotFound            = KeyError
  FrozenWriteRejected = TypeError
  LayerNotDeclared    = ValueError (raised by `list.remove` on a missing item)
Python's in-place list aliasing (an autocreated child Tree shares its parent's
layer list object) is not representable in a pure embedding; each Tree's layer
list is modelled independently, which agrees with the code on every state
built through writes.
-/

namespace Ceam

/-- Python exceptions raised by the embedded code. -/
inductive PyErr where
  /-- `KeyError(k)`; payload `none` models `KeyError(None)`. -/
  | keyError (k : Option String)
  /-- `TypeError(msg)` raised by frozen-write checks. -/
  | typeError (msg : String)
  /-- `ValueError` raised by `list.remove` when the item is absent. -/
  | valueError
  /-- `IndexError` raised by out-of-range list indexing. -/
  | indexError
  /-- `AttributeError` (unbound attribute / attribute access on a scalar). -/
  | attributeError
  deriving DecidableEq, Repr

/-- Python dict lookup `d[k]` / membership `k in d` over an association list
(first binding wins; our updates keep keys unique, matching a dict). -/
def alGet (k : String) : List (String × β) → Option β
  | [] => none
  | (k', v) :: rest => if k' = k then some v else alGet k rest

/-- Python dict update `d[k] = v`: replaces the binding in place if the key is
present (a dict keeps the key's original position), else appends. -/
def alSet (k : String) (v : β) : List (String × β) → List (String × β)
  | [] => [(k, v)]
  | (k', v') :: rest => if k' = k then (k, v) :: rest else (k', v') :: alSet k v rest

/-- Python `del d[k]` minus the error case: removes the binding. -/
def alRemove (k : String) : List (String × β) → List (String × β)
  | [] => []
  | (k', v') :: rest => if k' = k then rest else (k', v') :: alRemove k rest

/-- Python `list.remove(x)`: drops the first occurrence, `none` when absent
(the caller turns that into `ValueError`). -/
def pyListRemove (x : String) : List String → Option (List String)
  | [] => none
  | y :: ys => if y = x then some ys else (pyListRemove x ys).map (y :: ·)

/-- Python truthiness of an optional-string argument (`if layer:`):
`None` and the empty string are falsy. -/
def strTruthy : Option String → Bool
  | none => false
  | some s => s ≠ ""

/-- `ConfigNode`: one configurable value across override layers with
provenance.  `values` maps a layer name to its `(source, value)` pair. -/
structure ConfigNode (α : Type) where
  layers : List String
  values : List (String × (Option String × α))
  frozen : Bool
  deriving Repr

/-- `ConfigNode.__init__`: `if not layers: self._layers = ['base']`. -/
def mkConfigNode (layers : List String) : ConfigNode α :=
  { layers := if layers.isEmpty then ["base"] else layers
    values := []
    frozen := false }

namespace ConfigNode

/-- `ConfigNode.freeze`. -/
def freeze (n : ConfigNode α) : ConfigNode α :=
  { n with frozen := true }

/-- The reverse-order scan in `get_value_with_source`: walks the given list,
returning the first layer with a stored value; the second argument tracks the
Python loop variable, whose last value names the final `KeyError`. -/
def scanLayers (values : List (String × (Option String × α))) :
    List String → Option String → Except PyErr (Option String × α)
  | [], loopVar => .error (.keyError loopVar)
  | l :: rest, _ =>
    match alGet l values with
    | some p => .ok p
    | none => scanLayers values rest (some l)

/-- `ConfigNode.get_value_with_source(layer=None)`. -/
def get_value_with_source (n : ConfigNode α) (layer : Option String) :
    Except PyErr (Option String × α) :=
  if strTruthy layer then
    match layer with
    | some l =>
      match alGet l n.values with
      | some p => .ok p
      | none => .error (.keyError (some l))
    | none => .error (.keyError none)
  else
    scanLayers n.values n.layers.reverse layer

/-- `ConfigNode.get_value(layer=None)`. -/
def get_value (n : ConfigNode α) (layer : Option String) : Except PyErr α :=
  (n.get_value_with_source layer).map (·.2)

/-- One record of `ConfigNode.metadata()`. -/
structure MetaRecord (α : Type) where
  layer : String
  value : α
  source : Option String
  default : Bool
  deriving Repr

/-- `ConfigNode.metadata()`: one record per declared layer holding a value, in
declaration order; `default` is true exactly on the last declared layer. -/
def metadata (n : ConfigNode α) : List (MetaRecord α) :=
  n.layers.filterMap fun l =>
    (alGet l n.values).map fun p =>
      { layer := l
        value := p.2
        source := p.1
        default := n.layers.getLast? = some l }

/-- `ConfigNode.set_value(value, layer=None, source=None)`. -/
def set_value (n : ConfigNode α) (value : α) (layer source : Option String) :
    Except PyErr (ConfigNode α) :=
  if n.frozen then
    .error (.typeError "Frozen ConfigNode does not support assignment")
  else
    let layer' : Except PyErr String :=
      if strTruthy layer then .ok (layer.getD "")
      else
        match n.layers.getLast? with
        | some l => .ok l
        | none => .error .indexError
    layer'.map fun l => { n with values := alSet l (source, value) n.values }

/-- `ConfigNode.reset_layer(layer)`: `del self._values[layer]`. -/
def reset_layer (n : ConfigNode α) (layer : String) : Except PyErr (ConfigNode α) :=
  match alGet layer n.values with
  | none => .error (.keyError (some layer))
  | some _ => .ok { n with values := alRemove layer n.values }

/-- `ConfigNode.drop_layer(layer)`: reset, then remove from the layer list. -/
def drop_layer (n : ConfigNode α) (layer : String) : Except PyErr (ConfigNode α) := do
  let n' ← n.reset_layer layer
  match pyListRemove layer n'.layers with
  | none => .error .valueError
  | some ls => .ok { n' with layers := ls }

end ConfigNode

/-- A Python value written into a tree: either a scalar or a nested dict.
Dict entries are listed in insertion order; a Python dict's keys are unique. -/
inductive ConfigValue (α : Type) where
  | scalar : α → ConfigValue α
  | dict : List (String × ConfigValue α) → ConfigValue α

mutual
/-- A child of a `ConfigTree`: a leaf `ConfigNode` or a nested `ConfigTree`. -/
inductive Child (α : Type) where
  | node : ConfigNode α → Child α
  | tree : ConfigTree α → Child α

/-- `ConfigTree`: hierarchical mapping from names to nodes or subtrees. -/
inductive ConfigTree (α : Type) where
  | mk : List String → List (String × Child α) → Bool → ConfigTree α
end

/-- `ConfigTree.__init__` without initial data:
`if not layers: self._layers = ['base']`. -/
def mkConfigTree (layers : List String) : ConfigTree α :=
  .mk (if layers.isEmpty then ["base"] else layers) [] false

namespace ConfigTree

/-- The tree's declared layer sequence (`self._layers`). -/
def layers : ConfigTree α → List String
  | .mk ls _ _ => ls

/-- The materialized children (`self._children`), in insertion order. -/
def children : ConfigTree α → List (String × Child α)
  | .mk _ cs _ => cs

/-- The frozen flag (`self._frozen`). -/
def frozen : ConfigTree α → Bool
  | .mk _ _ fz => fz

end ConfigTree

mutual
/-- `ConfigTree.freeze`: mark this tree frozen and recurse into children. -/
def ConfigTree.freeze : ConfigTree α → ConfigTree α
  | .mk ls cs _ => .mk ls (freezeChildren cs) true

def freezeChildren : List (String × Child α) → List (String × Child α)
  | [] => []
  | (k, c) :: rest => (k, freezeChild c) :: freezeChildren rest

def freezeChild : Child α → Child α
  | .node n => .node n.freeze
  | .tree t => .tree t.freeze
end

mutual
/-- Every tree and node in the hierarchy (this tree included) is frozen. -/
def ConfigTree.allFrozen : ConfigTree α → Bool
  | .mk _ cs fz => fz && childrenAllFrozen cs

def childrenAllFrozen : List (String × Child α) → Bool
  | [] => true
  | (_, c) :: rest => childAllFrozen c && childrenAllFrozen rest

def childAllFrozen : Child α → Bool
  | .node n => n.frozen
  | .tree t => t.allFrozen
end

/-- `ConfigTree.__contains__(name)`: true iff a child is materialized. -/
def ConfigTree.contains (t : ConfigTree α) (name : String) : Bool :=
  (alGet name t.children).isSome

/-- `ConfigTree.__len__()`. -/
def ConfigTree.size (t : ConfigTree α) : Nat :=
  t.children.length

/-- What a name-based read resolves to: a node's value or a subtree. -/
inductive GetResult (α : Type) where
  | value : α → GetResult α
  | subtree : ConfigTree α → GetResult α

/-- `ConfigTree.get_from_layer(name, layer=None)`.  Returns the result and the
(possibly autocreation-extended) tree.  The Python code passes `self._layers`
to the autocreated child without copying; the pure embedding copies it. -/
def ConfigTree.get_from_layer (t : ConfigTree α) (name : String) (layer : Option String) :
    Except PyErr (GetResult α × ConfigTree α) :=
  match alGet name t.children with
  | none =>
    if t.frozen then .error (.keyError (some name))
    else
      let c : ConfigTree α := mkConfigTree t.layers
      .ok (.subtree c, .mk t.layers (alSet name (.tree c) t.children) t.frozen)
  | some (.node n) => (n.get_value layer).map fun a => (.value a, t)
  | some (.tree c) => .ok (.subtree c, t)

mutual
/-- `ConfigTree.set_with_metadata(name, value, layer=None, source=None)`:
a dict merges into (or replaces a non-Tree binding with) a child Tree; any
other value goes to a child Node (replacing a non-Node binding). -/
def ConfigTree.set_with_metadata (t : ConfigTree α) (name : String)
    (value : ConfigValue α) (layer source : Option String) :
    Except PyErr (ConfigTree α) :=
  if t.frozen then .error (.typeError "Frozen ConfigTree does not support assignment")
  else
    match value with
    | .dict d =>
      let target : ConfigTree α :=
        match alGet name t.children with
        | some (.tree c) => c
        | _ => mkConfigTree t.layers
      match target.read_dict d layer source with
      | .error e => .error e
      | .ok c' => .ok (.mk t.layers (alSet name (.tree c') t.children) t.frozen)
    | .scalar a =>
      let target : ConfigNode α :=
        match alGet name t.children with
        | some (.node n) => n
        | _ => mkConfigNode t.layers
      match target.set_value a layer source with
      | .error e => .error e
      | .ok n' => .ok (.mk t.layers (alSet name (.node n') t.children) t.frozen)

/-- `ConfigTree.read_dict(data_dict, layer=None, source=None)`. -/
def ConfigTree.read_dict (t : ConfigTree α) (d : List (String × ConfigValue α))
    (layer source : Option String) : Except PyErr (ConfigTree α) :=
  match d with
  | [] => .ok t
  | (k, v) :: rest =>
    match t.set_with_metadata k v layer source with
    | .error e => .error e
    | .ok t' => t'.read_dict rest layer source
end

/-- `ConfigTree.__setattr__(name, value)`. -/
def ConfigTree.setattr (t : ConfigTree α) (name : String) (value : ConfigValue α) :
    Except PyErr (ConfigTree α) :=
  t.set_with_metadata name value none none

/-- `ConfigTree.__getattr__(name)`. -/
def ConfigTree.getattr (t : ConfigTree α) (name : String) :
    Except PyErr (GetResult α × ConfigTree α) :=
  t.get_from_layer name none

mutual
/-- `ConfigTree.drop_layer(layer)`: drop on each child, then remove `layer`
from the declared sequence (`list.remove` raises `ValueError` if absent). -/
def ConfigTree.drop_layer : ConfigTree α → String → Except PyErr (ConfigTree α)
  | .mk ls cs fz, layer =>
    match dropLayerChildren cs layer with
    | .error e => .error e
    | .ok cs' =>
      match pyListRemove layer ls with
      | none => .error .valueError
      | some ls' => .ok (.mk ls' cs' fz)

def dropLayerChildren : List (String × Child α) → String → Except PyErr (List (String × Child α))
  | [], _ => .ok []
  | (k, c) :: rest, layer =>
    match dropLayerChild c layer with
    | .error e => .error e
    | .ok c' => (dropLayerChildren rest layer).map ((k, c') :: ·)

def dropLayerChild : Child α → String → Except PyErr (Child α)
  | .node n, layer => (n.drop_layer layer).map .node
  | .tree t, layer => (t.drop_layer layer).map .tree
end

mutual
/-- `ConfigTree._reset_layer(layer, preserve_keys, prefix)` over a child list. -/
def resetLayerChildren (pk : List (List String)) (pfx : List String) (layer : String) :
    List (String × Child α) → Except PyErr (List (String × Child α))
  | [] => .ok []
  | (k, c) :: rest =>
    if pfx ++ [k] ∈ pk then
      (resetLayerChildren pk pfx layer rest).map ((k, c) :: ·)
    else
      match resetLayerChild pk (pfx ++ [k]) layer c with
      | .error e => .error e
      | .ok c' => (resetLayerChildren pk pfx layer rest).map ((k, c') :: ·)

def resetLayerChild (pk : List (List String)) (pfx : List String) (layer : String) :
    Child α → Except PyErr (Child α)
  | .node n => (n.reset_layer layer).map .node
  | .tree (.mk ls cs fz) =>
    (resetLayerChildren pk pfx layer cs).map fun cs' => .tree (.mk ls cs' fz)
end

/-- `ConfigTree.reset_layer(layer, preserve_keys=[])`: clears `layer` from
every descendant node whose dotted path is not preserved. -/
def ConfigTree.reset_layer (t : ConfigTree α) (layer : String)
    (preserve_keys : List String) : Except PyErr (ConfigTree α) :=
  match t with
  | .mk ls cs fz =>
    (resetLayerChildren (preserve_keys.map (·.splitOn ".")) [] layer cs).map
      fun cs' => .mk ls cs' fz

/-- A chained attribute read `t.a.b...` following a path of names: each step
is `get_from_layer` (so a missing segment autocreates when unfrozen); an
intermediate scalar would be a Python `AttributeError`.  Returns the final
result and the updated root tree. -/
def ConfigTree.readPathS : ConfigTree α → List String → Except PyErr (GetResult α × ConfigTree α)
  | t, [] => .ok (.subtree t, t)
  | t, k :: rest =>
    match t.get_from_layer k none with
    | .error e => .error e
    | .ok (.value a, t') =>
      match rest with
      | [] => .ok (.value a, t')
      | _ :: _ => .error .attributeError
    | .ok (.subtree c, t') =>
      match rest with
      | [] => .ok (.subtree c, t')
      | _ :: _ =>
        match c.readPathS rest with
        | .error e => .error e
        | .ok (r, c') => .ok (r, .mk t'.layers (alSet k (.tree c') t'.children) t'.frozen)

/-- Pure observation: the `ConfigNode` stored at a path of names. -/
def ConfigTree.childNode? : ConfigTree α → List String → Option (ConfigNode α)
  | _, [] => none
  | t, [k] =>
    match alGet k t.children with
    | some (.node n) => some n
    | _ => none
  | t, k :: rest =>
    match alGet k t.children with
    | some (.tree c) => c.childNode? rest
    | _ => none

/-! ## The event framework (`src/ceam/framework/event.py`)

A listener is identified by its `__name__`, the only attribute the emission
order observes; invoking the listeners is modelled by producing the ordered
list of their names. -/

/-- `Event`: `time` is stamped at emission; `index`/`user_data` are opaque to
the framework and collapsed to a single opaque payload. -/
structure Event where
  time : Option Nat
  payload : Nat
  deriving DecidableEq, Repr

/-- `_EventChannel.__init__`: `self.listeners = [[] for i in range(10)]`. -/
structure EventChannel where
  listeners : List (List String)
  deriving Repr

def mkEventChannel : EventChannel :=
  ⟨List.replicate 10 []⟩

/-- `EventManager.__init__` / `setup`: channels is a `defaultdict` of
`_EventChannel`s; `clock` is unbound until `setup` (modelled as a constant
time value). -/
structure EventManager where
  channels : List (String × EventChannel)
  clock : Option Nat
  deriving Repr

def mkEventManager : EventManager :=
  ⟨[], none⟩

/-- `EventManager.setup(builder)`: binds the clock. -/
def EventManager.setup (m : EventManager) (c : Nat) : EventManager :=
  { m with clock := some c }

/-- Python list indexing `xs[i]` with an `int` index: negative indices count
from the end; out of range is `IndexError` (`none`). -/
def pyListIndex (len : Nat) (i : Int) : Option Nat :=
  if 0 ≤ i then
    if i < (len : Int) then some i.toNat else none
  else
    if 0 ≤ (len : Int) + i then some ((len : Int) + i).toNat else none

/-- `EventManager.register_listener(name, listener, priority=5)`:
`self.__event_types[name].listeners[priority].append(listener)`.  (On an
out-of-range priority the Python `defaultdict` access has already created the
channel before the `IndexError`; that side effect is not modelled.) -/
def EventManager.register_listener (m : EventManager) (name : String)
    (listener : String) (priority : Int) : Except PyErr EventManager :=
  let ch := (alGet name m.channels).getD mkEventChannel
  match pyListIndex ch.listeners.length priority with
  | none => .error .indexError
  | some i =>
    let bucket := (ch.listeners[i]?).getD []
    .ok { m with channels := alSet name ⟨ch.listeners.set i (bucket ++ [listener])⟩ m.channels }

/-- Lexicographic comparison of listener names by code point: the relation
Python's string comparison uses (stated on `String.data`, whose `List Char`
order is lexicographic and kernel-computable). -/
def nameLe (a b : String) : Prop :=
  a.data ≤ b.data

instance : DecidableRel nameLe := fun a b =>
  (inferInstance : Decidable (a.data ≤ b.data))

instance : IsTotal String nameLe :=
  ⟨fun a b => IsTotal.total (r := (· ≤ · : List Char → List Char → Prop)) a.data b.data⟩

instance : IsTrans String nameLe :=
  ⟨fun _ _ _ h1 h2 => le_trans h1 h2⟩

instance : IsAntisymm String nameLe :=
  ⟨fun a b h1 h2 => by cases a; cases b; exact congrArg String.mk (le_antisymm h1 h2)⟩

/-- Python `sorted(bucket, key=lambda x: x.__name__)` over listener names:
a stable sort by name. -/
def sortByName (l : List String) : List String :=
  l.insertionSort nameLe

def joinAll : List (List String) → List String
  | [] => []
  | b :: rest => b ++ joinAll rest

/-- The order in which `_EventChannel.emit` invokes its listeners: buckets in
index order, each bucket sorted by listener name. -/
def EventChannel.emitOrder (ch : EventChannel) : List String :=
  joinAll (ch.listeners.map sortByName)

/-- `_EventChannel.emit(event)` on the channel registered under `name`:
stamps `event.time` from the manager's clock (an `Event` always has a `time`
attribute, so the `hasattr` guard always passes; an unbound clock is an
`AttributeError`) and invokes the listeners in `emitOrder`. -/
def EventManager.emit (m : EventManager) (name : String) (ev : Event) :
    Except PyErr (Event × List String) :=
  match m.clock with
  | none => .error .attributeError
  | some c =>
    let ch := (alGet name m.channels).getD mkEventChannel
    .ok ({ ev with time := some c }, ch.emitOrder)

/-- `EventManager.get_emitter(name)`: the `defaultdict` access creates the
channel if absent; the returned bound method is modelled by emitting through
the manager state under `name`. -/
def EventManager.get_emitter (m : EventManager) (name : String) : EventManager :=
  match alGet name m.channels with
  | some _ => m
  | none => { m with channels := m.channels ++ [(name, mkEventChannel)] }

/-- `EventManager.list_events()`. -/
def EventManager.list_events (m : EventManager) : List String :=
  m.channels.map (·.1)

/-- Register a sequence of `(listener name, priority)` pairs on one channel,
stopping at the first error (each step is `register_listener`). -/
def registerAll (m : EventManager) (name : String) :
    List (String × Int) → Except PyErr EventManager
  | [] => .ok m
  | (l, p) :: rest =>
    match m.register_listener name l p with
    | .error e => .error e
    | .ok m' => registerAll m' name rest

/-- Register `regs` on channel `name` of a fresh manager with clock `c`, then
emit `ev` on that channel. -/
def emitAfter (c : Nat) (name : String) (regs : List (String × Int)) (ev : Event) :
    Except PyErr (Event × List String) :=
  match registerAll (mkEventManager.setup c) name regs with
  | .error e => .error e
  | .ok m => m.emit name ev

/-- Spec-side view of one registration acting on the bucket list. -/
def bucketStep (bs : List (List String)) (r : String × Int) : List (List String) :=
  match pyListIndex bs.length r.2 with
  | some i => bs.set i ((bs[i]?).getD [] ++ [r.1])
  | none => bs

/-! ### Spec-side helpers for the `read_dict` round trip -/

mutual
/-- Keys are unique at every dict level, as they are in a Python dict. -/
def wfValue : ConfigValue α → Bool
  | .scalar _ => true
  | .dict d => wfEntries d

def wfEntries : List (String × ConfigValue α) → Bool
  | [] => true
  | (k, v) :: rest =>
    !(rest.map (·.1)).contains k && wfValue v && wfEntries rest
end

mutual
/-- The leaf paths of a nested mapping and the scalar stored at each. -/
def leafPaths : ConfigValue α → List (List String × α)
  | .scalar a => [([], a)]
  | .dict d => leafPathsEntries d

def leafPathsEntries : List (String × ConfigValue α) → List (List String × α)
  | [] => []
  | (k, v) :: rest =>
    (leafPaths v).map (fun pa => (k :: pa.1, pa.2)) ++ leafPathsEntries rest
end

/-- The layer `set_value` stores into: the given layer if truthy, else the
last declared layer. -/
def resLayer (ls : List String) (L : Option String) : String :=
  if strTruthy L then L.getD "" else (ls.getLast?).getD ""

/-- The node a fresh-tree write creates for a scalar leaf. -/
def valueNode (ls : List String) (L S : Option String) (a : α) : ConfigNode α :=
  { layers := ls, values := [(resLayer ls L, (S, a))], frozen := false }

mutual
/-- The child a fresh-tree write creates for a value. -/
def buildChild (ls : List String) (L S : Option String) : ConfigValue α → Child α
  | .scalar a => .node (valueNode ls L S a)
  | .dict d => .tree (.mk ls (buildChildren ls L S d) false)

def buildChildren (ls : List String) (L S : Option String) :
    List (String × ConfigValue α) → List (String × Child α)
  | [] => []
  | (k, v) :: rest => (k, buildChild ls L S v) :: buildChildren ls L S rest
end

/-! ### Concrete scenarios named by the spec -/

/-- Tree with layers `["override", "base"]`; `base.x = 1` from source
`"defaults"`, then `override.x = 2` from source `"cli"`. -/
def c2tree : Except PyErr (ConfigTree Int) :=
  match (mkConfigTree ["override", "base"]).set_with_metadata "x" (.scalar 1)
      (some "base") (some "defaults") with
  | .error e => .error e
  | .ok t => t.set_with_metadata "x" (.scalar 2) (some "override") (some "cli")

/-- The observations the `c2tree` scenario makes on the node at `x`. -/
def c2obs : Option (Except PyErr (Option String × Int) × Except PyErr (Option String × Int)
    × List (ConfigNode.MetaRecord Int)) :=
  match c2tree with
  | .ok t =>
    match alGet "x" t.children with
    | some (.node n) =>
      some (n.get_value_with_source none, n.get_value_with_source (some "base"), n.metadata)
    | _ => none
  | .error _ => none

/-- Tree with layers `["base", "clinical"]` (the last declared layer is the
most specific) holding `x` and `sub.y` in both layers. -/
def c5tree : Except PyErr (ConfigTree Int) :=
  match (mkConfigTree ["base", "clinical"]).read_dict
      [("x", .scalar 1), ("sub", .dict [("y", .scalar 2)])] (some "base") (some "b") with
  | .error e => .error e
  | .ok t =>
    t.read_dict [("x", .scalar 10), ("sub", .dict [("y", .scalar 20)])]
      (some "clinical") (some "c")

/-- The `c5tree` scenario after `drop_layer("clinical")`. -/
def c5dropped : Except PyErr (ConfigTree Int) :=
  match c5tree with
  | .error e => .error e
  | .ok t => t.drop_layer "clinical"

/-- Reading a value at a path (`none` when the read is not a scalar value). -/
def pathValue (t : ConfigTree α) (path : List String) : Option α :=
  match t.readPathS path with
  | .ok (.value a, _) => some a
  | _ => none

/-- The `c5tree` scenario frozen, for the frozen-`drop_layer` counterexample. -/
def c4frozen : Except PyErr (ConfigTree Int) :=
  match c5tree with
  | .error e => .error e
  | .ok t => .ok t.freeze

/-- The tree that writing `{a: {b: 5}, c: 6}` at layer `"base"` from source
`"cfg"` into a fresh tree with layers `["base", "override"]` produces. -/
def c7T : ConfigTree Int :=
  .mk ["base", "override"]
    [("a", .tree (.mk ["base", "override"]
        [("b", .node ⟨["base", "override"], [("base", (some "cfg", 5))], false⟩)] false)),
     ("c", .node ⟨["base", "override"], [("base", (some "cfg", 6))], false⟩)] false

/-! ## Theorems -/

@[simp] theorem ConfigTree.layers_mk (ls : List String) (cs : List (String × Child α))
    (fz : Bool) : (ConfigTree.mk ls cs fz).layers = ls := rfl

@[simp] theorem ConfigTree.children_mk (ls : List String) (cs : List (String × Child α))
    (fz : Bool) : (ConfigTree.mk ls cs fz).children = cs := rfl

@[simp] theorem ConfigTree.frozen_mk (ls : List String) (cs : List (String × Child α))
    (fz : Bool) : (ConfigTree.mk ls cs fz).frozen = fz := rfl

theorem alSet_of_absent (k : String) (v : β) :
    ∀ l : List (String × β), alGet k l = none → alSet k v l = l ++ [(k, v)]
  | [], _ => rfl
  | (k', v') :: rest, h => by
    by_cases hk : k' = k
    · simp [alGet, hk] at h
    · simp only [alSet, if_neg hk, List.cons_append, List.cons.injEq, true_and]
      exact alSet_of_absent k v rest (by simpa [alGet, hk] using h)

theorem alSet_self (k : String) (v : β) :
    ∀ l : List (String × β), alGet k l = some v → alSet k v l = l
  | (k', v') :: rest, h => by
    by_cases hk : k' = k
    · subst hk
      simp [alGet] at h
      simp [alSet, h]
    · simp only [alSet, if_neg hk, List.cons.injEq, true_and]
      exact alSet_self k v rest (by simpa [alGet, hk] using h)

theorem alGet_append_left (k : String) (l₁ l₂ : List (String × β)) (h : alGet k l₁ = none) :
    alGet k (l₁ ++ l₂) = alGet k l₂ := by
  induction l₁ with
  | nil => rfl
  | cons p rest ih =>
    obtain ⟨k', v'⟩ := p
    by_cases hk : k' = k
    · simp [alGet, hk] at h
    · simp only [List.cons_append, alGet, if_neg hk] at h ⊢
      exact ih h

/-- Claim C2 counterexample: in the spec's own scenario — layers declared as
`["override", "base"]`, `base.x = 1` from `"defaults"`, `override.x = 2` from
`"cli"` — `get_value_with_source()` returns `("defaults", 1)`, not the
claimed `("cli", 2)`: `reversed(["override", "base"])` queries `"base"`
first. -/
theorem c2_get_value_returns_defaults :
    c2obs.map (·.1) = some (.ok (some "defaults", 1))
    ∧ ((some "defaults", (1 : Int)) ≠ (some "cli", (2 : Int))) :=
  ⟨rfl, by decide⟩

/-- Claim C2 (amended): same scenario, but `get_value_with_source()` without a
layer returns `("defaults", 1)`, the value of the layer queried first by the
reverse scan; with `layer="base"` it returns `("defaults", 1)`; `metadata()`
returns exactly two records, the `"base"` record with `default=true` and the
`"override"` record with `default=false`. -/
theorem c2_scenario :
    c2obs = some (.ok (some "defaults", 1), .ok (some "defaults", 1),
      [{ layer := "override", value := 2, source := some "cli", default := false },
       { layer := "base", value := 1, source := some "defaults", default := true }]) :=
  rfl

/-- Claim C5 counterexample: dropping `"clinical"` a second time fails with
`KeyError` (the spec's NotFound), raised by `reset_layer`'s
`del self._values[layer]` on a descendant, not with `ValueError` (the spec's
LayerNotDeclared). -/
theorem c5_second_drop_is_keyerror :
    (match c5dropped with
     | .ok u => u.drop_layer "clinical"
     | .error e => .error e) = .error (.keyError (some "clinical"))
    ∧ PyErr.keyError (some "clinical") ≠ .valueError :=
  ⟨rfl, by decide⟩

/-- Claim C5 (amended): on a tree with layers `["base", "clinical"]` and
values stored in both layers, `drop_layer("clinical")` removes every
descendant's `"clinical"` entry and removes `"clinical"` from the declared
sequence, after which reads resolve from `"base"`; calling it a second time
fails — but with NotFound (`KeyError` from deleting the already-removed layer
value on a descendant), not LayerNotDeclared. -/
theorem c5_drop_layer_scenario :
    (match c5dropped with
     | .ok u => some (pathValue u ["x"], pathValue u ["sub", "y"], u.layers,
         (u.childNode? ["x"]).map (·.values), (u.childNode? ["sub", "y"]).map (·.values))
     | .error _ => none)
      = some (some 1, some 2, ["base"],
          some [("base", (some "b", 1))], some [("base", (some "b", 2))])
    ∧ (match c5dropped with
       | .ok u => u.drop_layer "clinical"
       | .error e => .error e) = .error (.keyError (some "clinical")) :=
  ⟨rfl, rfl⟩

/-- Claim C4 counterexample: `drop_layer` on a frozen tree does not fail with
FrozenWriteRejected — it succeeds and silently removes the layer (here the
frozen `c5tree`, whose layer list shrinks to `["base"]`). -/
theorem c4_frozen_drop_layer_succeeds :
    (match c4frozen with
     | .ok u => (u.drop_layer "clinical").map ConfigTree.layers
     | .error e => .error e) = .ok ["base"] :=
  rfl

/-- Claim C8: on a manager set up with a clock, getting an emitter for
`"time_step"` and emitting on that channel with zero registered listeners
succeeds (invoking no listeners), and `list_events()` then contains
`"time_step"`. -/
theorem c8_emit_without_listeners (c : Nat) (ev : Event) :
    ((mkEventManager.setup c).get_emitter "time_step").emit "time_step" ev
        = .ok ({ ev with time := some c }, [])
    ∧ "time_step" ∈ ((mkEventManager.setup c).get_emitter "time_step").list_events :=
  ⟨rfl, by simp [EventManager.setup, EventManager.get_emitter,
    EventManager.list_events, mkEventManager, alGet]⟩

/-- Claim C10 counterexample: registration with the negative priority `-11`
does fail (with `IndexError`), contradicting the claim that a negative
priority never fails. -/
theorem c10_negative_eleven_fails :
    mkEventManager.register_listener "e" "l" (-11) = .error .indexError :=
  rfl

theorem scanLayers_of_find_some (values : List (String × (Option String × α))) :
    ∀ (ls : List String) (init : Option String) (l : String),
      (ls.find? fun l' => (alGet l' values).isSome) = some l →
      ∃ p, alGet l values = some p ∧ ConfigNode.scanLayers values ls init = .ok p := by
  intro ls
  induction ls with
  | nil => intro init l h; simp [List.find?] at h
  | cons x rest ih =>
    intro init l h
    rcases hx : alGet x values with _ | p
    · rw [List.find?_cons_of_neg _ (by simp [hx])] at h
      simpa [ConfigNode.scanLayers, hx] using ih (some x) l h
    · rw [List.find?_cons_of_pos _ (by simp [hx])] at h
      obtain rfl : x = l := by simpa using h
      exact ⟨p, hx, by simp [ConfigNode.scanLayers, hx]⟩

theorem scanLayers_of_find_none (values : List (String × (Option String × α))) :
    ∀ (ls : List String) (init : Option String),
      (ls.find? fun l' => (alGet l' values).isSome) = none →
      ∃ k, ConfigNode.scanLayers values ls init = .error (.keyError k) := by
  intro ls
  induction ls with
  | nil => exact fun init _ => ⟨init, rfl⟩
  | cons x rest ih =>
    intro init h
    rw [List.find?_cons] at h
    rcases hx : alGet x values with _ | p
    · simp only [ConfigNode.scanLayers, hx]
      exact ih (some x) (by simpa [hx] using h)
    · simp [hx] at h

/-- Claim C1: without a layer, `get_value_with_source` scans the declared
layers in reverse declaration order and returns the stored `(source, value)`
pair of the first layer holding one (stated through `List.find?` on the
reversed layer sequence); if no layer holds a value it fails NotFound
(`KeyError`); and `get_value` returns the value half of that same pair. -/
theorem c1_reverse_scan_resolution (n : ConfigNode α) :
    (∀ l, (n.layers.reverse.find? fun l' => (alGet l' n.values).isSome) = some l →
      ∃ p, alGet l n.values = some p ∧ n.get_value_with_source none = .ok p)
    ∧ ((n.layers.reverse.find? fun l' => (alGet l' n.values).isSome) = none →
      ∃ k, n.get_value_with_source none = .error (.keyError k))
    ∧ (∀ layer p, n.get_value_with_source layer = .ok p → n.get_value layer = .ok p.2)
    ∧ (∀ layer e, n.get_value_with_source layer = .error e → n.get_value layer = .error e) := by
  refine ⟨fun l h => ?_, fun h => ?_, fun layer p h => ?_, fun layer e h => ?_⟩
  · simpa [ConfigNode.get_value_with_source, strTruthy] using
      scanLayers_of_find_some n.values n.layers.reverse none l h
  · simpa [ConfigNode.get_value_with_source, strTruthy] using
      scanLayers_of_find_none n.values n.layers.reverse none h
  · simp [ConfigNode.get_value, h, Except.map]
  · simp [ConfigNode.get_value, h, Except.map]

/-- Witness for C1 at a concrete node: layers `["a", "b"]`, a value stored
only at `"a"`; the reverse scan tries `"b"` first, then finds `"a"`. -/
theorem c1_reverse_scan_resolution_witness :
    (⟨["a", "b"], [("a", (some "s", 3))], false⟩ : ConfigNode Int).get_value_with_source none
        = .ok (some "s", 3)
    ∧ (⟨["a", "b"], [("a", (some "s", 3))], false⟩ : ConfigNode Int).get_value none = .ok 3
    ∧ ∃ k, (⟨["a", "b"], [], false⟩ : ConfigNode Int).get_value_with_source none
        = .error (.keyError k) := by
  obtain ⟨p, hp, hv⟩ :=
    (c1_reverse_scan_resolution (⟨["a", "b"], [("a", (some "s", 3))], false⟩ : ConfigNode Int)).1
      "a" rfl
  obtain rfl : p = (some "s", (3 : Int)) := by
    have h' : (some "s", (3 : Int)) = p := by simpa [alGet] using hp
    exact h'.symm
  refine ⟨hv, ?_, ?_⟩
  · exact (c1_reverse_scan_resolution _).2.2.1 none _ hv
  · exact (c1_reverse_scan_resolution (⟨["a", "b"], [], false⟩ : ConfigNode Int)).2.1 rfl

/-- Claim C6: a name-based read on an unfrozen tree with no materialized
child autocreates an empty child Tree (with the parent's layers, or
`["base"]` if those are empty) and returns it; on a frozen tree it fails
NotFound; a Node child resolves to the node's value, a Tree child to the
subtree itself; and containment holds exactly for materialized children. -/
theorem c6_name_read (t : ConfigTree α) (name : String) :
    (alGet name t.children = none → t.frozen = false →
      t.get_from_layer name none =
        .ok (.subtree (.mk (if t.layers.isEmpty then ["base"] else t.layers) [] false),
          .mk t.layers
            (alSet name (.tree (.mk (if t.layers.isEmpty then ["base"] else t.layers) [] false))
              t.children) false))
    ∧ (alGet name t.children = none → t.frozen = true →
      t.get_from_layer name none = .error (.keyError (some name)))
    ∧ (∀ n layer, alGet name t.children = some (.node n) →
      t.get_from_layer name layer = (n.get_value layer).map fun a => (.value a, t))
    ∧ (∀ c layer, alGet name t.children = some (.tree c) →
      t.get_from_layer name layer = .ok (.subtree c, t))
    ∧ (t.contains name = true ↔ (alGet name t.children).isSome) := by
  refine ⟨fun h1 h2 => ?_, fun h1 h2 => ?_, fun n layer h1 => ?_, fun c layer h1 => ?_, ?_⟩
  · simp [ConfigTree.get_from_layer, h1, h2, mkConfigTree]
  · simp [ConfigTree.get_from_layer, h1, h2]
  · simp [ConfigTree.get_from_layer, h1]
  · simp [ConfigTree.get_from_layer, h1]
  · simp [ConfigTree.contains]

/-- Observations for C6 on a tree with one node child `"n"` and one subtree
child `"t"`. -/
theorem c6_name_read_witness :
    (ConfigTree.mk ["base"] [] false : ConfigTree Int).get_from_layer "a" none
        = .ok (.subtree (.mk ["base"] [] false),
            .mk ["base"] [("a", .tree (.mk ["base"] [] false))] false)
    ∧ (ConfigTree.mk ["base"] [] true : ConfigTree Int).get_from_layer "a" none
        = .error (.keyError (some "a"))
    ∧ (ConfigTree.mk ["base"] [("n", .node ⟨["base"], [("base", (some "s", 1))], false⟩)] false
        : ConfigTree Int).get_from_layer "n" none
        = .ok (.value 1, .mk ["base"] [("n", .node ⟨["base"], [("base", (some "s", 1))], false⟩)] false)
    ∧ (ConfigTree.mk ["base"] [("t", .tree (.mk ["clin"] [] false))] false
        : ConfigTree Int).get_from_layer "t" none
        = .ok (.subtree (.mk ["clin"] [] false),
            .mk ["base"] [("t", .tree (.mk ["clin"] [] false))] false)
    ∧ ((ConfigTree.mk ["base"] [("t", .tree (.mk ["clin"] [] false))] false
        : ConfigTree Int).contains "t" = true
      ↔ (alGet "t" (ConfigTree.mk ["base"] [("t", .tree (.mk ["clin"] [] false))] false
        : ConfigTree Int).children).isSome) := by
  refine ⟨?_, ?_, ?_, ?_, ?_⟩
  · exact (c6_name_read (ConfigTree.mk ["base"] [] false : ConfigTree Int) "a").1 rfl rfl
  · exact (c6_name_read (ConfigTree.mk ["base"] [] true : ConfigTree Int) "a").2.1 rfl rfl
  · exact ((c6_name_read
      (ConfigTree.mk ["base"] [("n", .node ⟨["base"], [("base", (some "s", 1))], false⟩)] false
        : ConfigTree Int) "n").2.2.1
      ⟨["base"], [("base", (some "s", 1))], false⟩ none rfl).trans rfl
  · exact (c6_name_read
      (ConfigTree.mk ["base"] [("t", .tree (.mk ["clin"] [] false))] false
        : ConfigTree Int) "t").2.2.2.1 (.mk ["clin"] [] false) none rfl
  · exact (c6_name_read
      (ConfigTree.mk ["base"] [("t", .tree (.mk ["clin"] [] false))] false
        : ConfigTree Int) "t").2.2.2.2

/-- Claim C9: on an unfrozen tree, writing a scalar to a name bound to a
subtree rebuilds the binding from a freshly created node (the subtree is
discarded: the result does not depend on it), and writing a dict to a name
bound to a node rebuilds the binding from a freshly created empty tree (the
node's stored per-layer values are discarded). -/
theorem c9_binding_replacement (t : ConfigTree α) (name : String)
    (h : t.frozen = false) :
    (∀ (c : ConfigTree α) (a : α) L S, alGet name t.children = some (.tree c) →
      t.set_with_metadata name (.scalar a) L S =
        ((mkConfigNode t.layers).set_value a L S).map fun n' =>
          .mk t.layers (alSet name (.node n') t.children) t.frozen)
    ∧ (∀ (n : ConfigNode α) d L S, alGet name t.children = some (.node n) →
      t.set_with_metadata name (.dict d) L S =
        ((mkConfigTree t.layers).read_dict d L S).map fun c' =>
          .mk t.layers (alSet name (.tree c') t.children) t.frozen) := by
  constructor
  · intro c a L S hc
    simp only [ConfigTree.set_with_metadata, h, Bool.false_eq_true, if_false, hc]
    cases (mkConfigNode t.layers : ConfigNode α).set_value a L S <;> rfl
  · intro n d L S hn
    simp only [ConfigTree.set_with_metadata, h, Bool.false_eq_true, if_false, hn]
    cases (mkConfigTree t.layers : ConfigTree α).read_dict d L S <;> rfl

/-- Witness for C9: a scalar write over a subtree binding discards the
subtree; a dict write over a node binding discards the node's values. -/
theorem c9_binding_replacement_witness :
    (ConfigTree.mk ["base"] [("x", .tree (.mk ["base"] [("deep", .node ⟨["base"], [("base", (none, 7))], false⟩)] false))] false
        : ConfigTree Int).set_with_metadata "x" (.scalar 5) none (some "s")
      = .ok (.mk ["base"] [("x", .node ⟨["base"], [("base", (some "s", 5))], false⟩)] false)
    ∧ (ConfigTree.mk ["base"] [("y", .node ⟨["base"], [("base", (none, 7))], false⟩)] false
        : ConfigTree Int).set_with_metadata "y" (.dict [("z", .scalar 1)]) none (some "s")
      = .ok (.mk ["base"]
          [("y", .tree (.mk ["base"] [("z", .node ⟨["base"], [("base", (some "s", 1))], false⟩)] false))] false) := by
  constructor
  · exact ((c9_binding_replacement
      (ConfigTree.mk ["base"]
        [("x", .tree (.mk ["base"]
          [("deep", .node ⟨["base"], [("base", (none, 7))], false⟩)] false))] false
        : ConfigTree Int) "x" rfl).1
      (.mk ["base"] [("deep", .node ⟨["base"], [("base", (none, 7))], false⟩)] false)
      5 none (some "s") rfl).trans rfl
  · exact ((c9_binding_replacement
      (ConfigTree.mk ["base"] [("y", .node ⟨["base"], [("base", (none, 7))], false⟩)] false
        : ConfigTree Int) "y" rfl).2
      ⟨["base"], [("base", (none, 7))], false⟩
      [("z", .scalar 1)] none (some "s") rfl).trans rfl

mutual
theorem freeze_allFrozen : ∀ t : ConfigTree α, t.freeze.allFrozen = true
  | .mk _ cs _ => by
    simp only [ConfigTree.freeze, ConfigTree.allFrozen, Bool.true_and]
    exact freezeChildren_allFrozen cs

theorem freezeChildren_allFrozen :
    ∀ cs : List (String × Child α), childrenAllFrozen (freezeChildren cs) = true
  | [] => rfl
  | (_, c) :: rest => by
    simp only [freezeChildren, childrenAllFrozen, Bool.and_eq_true]
    exact ⟨freezeChild_allFrozen c, freezeChildren_allFrozen rest⟩

theorem freezeChild_allFrozen : ∀ c : Child α, childAllFrozen (freezeChild c) = true
  | .node _ => rfl
  | .tree t => freeze_allFrozen t
end

theorem pyListRemove_of_mem (l : String) :
    ∀ ls : List String, l ∈ ls → ∃ ls', pyListRemove l ls = some ls'
  | x :: rest, h => by
    by_cases hx : x = l
    · exact ⟨rest, by simp [pyListRemove, hx]⟩
    · obtain ⟨ls', h'⟩ := pyListRemove_of_mem l rest (by
        rcases List.mem_cons.mp h with h' | h'
        · exact absurd h'.symm hx
        · exact h')
      exact ⟨x :: ls', by simp [pyListRemove, hx, h']⟩

/-- Claim C4 (amended): `freeze()` marks the tree and every descendant
frozen, and every frozen tree or node rejects value writes
(`set_with_metadata`, `set_value`, and `read_dict` of a nonempty mapping)
with FrozenWriteRejected (`TypeError`); but the layer mutations `drop_layer`
and `reset_layer` are not frozen-guarded: on a frozen node they succeed and
silently mutate it. -/
theorem c4_freeze_guards_value_writes :
    (∀ t : ConfigTree α, t.freeze.allFrozen = true)
    ∧ (∀ (t : ConfigTree α) name v L S, t.frozen = true →
      t.set_with_metadata name v L S =
        .error (.typeError "Frozen ConfigTree does not support assignment"))
    ∧ (∀ (t : ConfigTree α) e es L S, t.frozen = true →
      t.read_dict (e :: es) L S =
        .error (.typeError "Frozen ConfigTree does not support assignment"))
    ∧ (∀ (n : ConfigNode α) v L S, n.frozen = true →
      n.set_value v L S = .error (.typeError "Frozen ConfigNode does not support assignment"))
    ∧ (∀ (n : ConfigNode α) l p, n.frozen = true → alGet l n.values = some p →
      n.reset_layer l = .ok { n with values := alRemove l n.values })
    ∧ (∀ (n : ConfigNode α) l p, n.frozen = true → alGet l n.values = some p →
      l ∈ n.layers → ∃ n', n.drop_layer l = .ok n' ∧ n'.frozen = true) := by
  refine ⟨freeze_allFrozen, fun t name v L S h => ?_, fun t e es L S h => ?_,
    fun n v L S h => ?_, fun n l p h hv => ?_, fun n l p h hv hl => ?_⟩
  · cases v <;> simp [ConfigTree.set_with_metadata, h]
  · obtain ⟨k, v⟩ := e
    cases v <;> simp [ConfigTree.read_dict, ConfigTree.set_with_metadata, h]
  · simp [ConfigNode.set_value, h]
  · simp [ConfigNode.reset_layer, hv]
  · obtain ⟨ls', hls'⟩ := pyListRemove_of_mem l n.layers hl
    refine ⟨⟨ls', alRemove l n.values, n.frozen⟩, ?_, h⟩
    simp [ConfigNode.drop_layer, ConfigNode.reset_layer, hv, hls', Bind.bind, Except.bind]

/-- Witness for C4 at concrete frozen states. -/
theorem c4_freeze_guards_value_writes_witness :
    ((ConfigTree.mk ["base"] [("n", .node ⟨["base"], [("base", (none, 1))], false⟩)] false
        : ConfigTree Int).freeze.allFrozen = true)
    ∧ (ConfigTree.mk ["base"] [] true : ConfigTree Int).set_with_metadata "x" (.scalar 3)
        none none = .error (.typeError "Frozen ConfigTree does not support assignment")
    ∧ (ConfigTree.mk ["base"] [] true : ConfigTree Int).read_dict [("x", .scalar 3)]
        none none = .error (.typeError "Frozen ConfigTree does not support assignment")
    ∧ (⟨["base"], [], true⟩ : ConfigNode Int).set_value 3 none none
        = .error (.typeError "Frozen ConfigNode does not support assignment")
    ∧ (⟨["base"], [("base", (none, 1))], true⟩ : ConfigNode Int).reset_layer "base"
        = .ok ⟨["base"], [], true⟩
    ∧ ∃ n', (⟨["base"], [("base", (none, 1))], true⟩ : ConfigNode Int).drop_layer "base"
        = .ok n' ∧ n'.frozen = true := by
  refine ⟨c4_freeze_guards_value_writes.1 _,
    c4_freeze_guards_value_writes.2.1 _ "x" _ none none rfl,
    c4_freeze_guards_value_writes.2.2.1 _ _ [] none none rfl,
    c4_freeze_guards_value_writes.2.2.2.1 _ 3 none none rfl,
    (c4_freeze_guards_value_writes.2.2.2.2.1
      (⟨["base"], [("base", (none, 1))], true⟩ : ConfigNode Int) "base" (none, 1) rfl rfl).trans rfl,
    c4_freeze_guards_value_writes.2.2.2.2.2
      (⟨["base"], [("base", (none, 1))], true⟩ : ConfigNode Int) "base" (none, 1) rfl rfl
      (by decide)⟩

/-- Claim C10 (amended): `register_listener` indexes a fixed list of 10
priority buckets with Python list-index semantics: priorities 0..9 land in
bucket `priority`; priorities ≥ 10 fail with `IndexError`; priorities -10..-1
silently land in bucket `10 + priority`; and priorities ≤ -11 also fail with
`IndexError` (the claim said negative priorities never fail). -/
theorem c10_priority_indexing (p : Int) (e l : String) :
    (0 ≤ p → p < 10 →
      mkEventManager.register_listener e l p =
        .ok ⟨[(e, ⟨(List.replicate 10 []).set p.toNat [l]⟩)], none⟩)
    ∧ (10 ≤ p → mkEventManager.register_listener e l p = .error .indexError)
    ∧ (-10 ≤ p → p < 0 →
      mkEventManager.register_listener e l p =
        .ok ⟨[(e, ⟨(List.replicate 10 []).set (10 + p).toNat [l]⟩)], none⟩)
    ∧ (p < -10 → mkEventManager.register_listener e l p = .error .indexError) := by
  have replicate_bucket : ∀ i : Nat,
      ((List.replicate 10 ([] : List String))[i]?).getD [] = [] := by
    intro i
    rw [List.getElem?_replicate]
    by_cases h : i < 10
    · rw [if_pos h]
      rfl
    · rw [if_neg h]
      rfl
  have register_fresh_eq : ∀ (i : Nat), pyListIndex 10 p = some i →
      mkEventManager.register_listener e l p
        = .ok ⟨[(e, ⟨(List.replicate 10 []).set i [l]⟩)], none⟩ := by
    intro i hi
    rw [show mkEventManager.register_listener e l p
        = (match pyListIndex 10 p with
           | none => .error .indexError
           | some j => .ok ⟨[(e, ⟨(List.replicate 10 []).set j
               (((List.replicate 10 ([] : List String))[j]?).getD [] ++ [l])⟩)], none⟩
           : Except PyErr EventManager) from rfl, hi]
    show (Except.ok ⟨[(e, ⟨(List.replicate 10 []).set i
          (((List.replicate 10 ([] : List String))[i]?).getD [] ++ [l])⟩)], none⟩
        : Except PyErr EventManager)
      = .ok ⟨[(e, ⟨(List.replicate 10 []).set i [l]⟩)], none⟩
    rw [replicate_bucket i, List.nil_append]
  have register_fresh_err : pyListIndex 10 p = none →
      mkEventManager.register_listener e l p = .error .indexError := by
    intro hi
    rw [show mkEventManager.register_listener e l p
        = (match pyListIndex 10 p with
           | none => .error .indexError
           | some j => .ok ⟨[(e, ⟨(List.replicate 10 []).set j
               (((List.replicate 10 ([] : List String))[j]?).getD [] ++ [l])⟩)], none⟩
           : Except PyErr EventManager) from rfl, hi]
  refine ⟨fun h1 h2 => ?_, fun h1 => ?_, fun h1 h2 => ?_, fun h1 => ?_⟩
  · refine register_fresh_eq p.toNat ?_
    simp [pyListIndex, h1]
    omega
  · refine register_fresh_err ?_
    simp only [pyListIndex]
    split_ifs <;> first | rfl | omega
  · refine register_fresh_eq (10 + p).toNat ?_
    simp only [pyListIndex]
    split_ifs <;> first | rfl | omega
  · refine register_fresh_err ?_
    simp only [pyListIndex]
    split_ifs <;> first | rfl | omega

theorem pyListIndex_lt (n : Nat) (p : Int) (i : Nat) (h : pyListIndex n p = some i) :
    i < n := by
  simp only [pyListIndex] at h
  split_ifs at h with h1 h2 h3
  · obtain rfl := Option.some.inj h
    omega
  · obtain rfl := Option.some.inj h
    omega

theorem bucketStep_length (bs : List (List String)) (r : String × Int) :
    (bucketStep bs r).length = bs.length := by
  unfold bucketStep
  cases h : pyListIndex bs.length r.2 <;> simp

theorem forall₂_perm_refl : ∀ bs : List (List String), List.Forall₂ List.Perm bs bs
  | [] => .nil
  | b :: rest => .cons (List.Perm.refl b) (forall₂_perm_refl rest)

theorem forall₂_perm_trans {a b c : List (List String)}
    (h1 : List.Forall₂ List.Perm a b) (h2 : List.Forall₂ List.Perm b c) :
    List.Forall₂ List.Perm a c := by
  induction h1 generalizing c with
  | nil => cases h2; exact .nil
  | cons hab _ ih =>
    cases h2 with
    | cons hbc hrest2 => exact .cons (hab.trans hbc) (ih hrest2)

theorem forall₂_perm_set {bs bs' : List (List String)}
    (h : List.Forall₂ List.Perm bs bs') :
    ∀ (i : Nat) (a a' : List String), a.Perm a' →
      List.Forall₂ List.Perm (bs.set i a) (bs'.set i a') := by
  induction h with
  | nil => intro i a a' _; exact .nil
  | cons hb hrest ih =>
    intro i a a' ha
    cases i with
    | zero => exact .cons ha hrest
    | succ j => exact .cons hb (ih j a a' ha)

theorem forall₂_perm_getElem {bs bs' : List (List String)}
    (h : List.Forall₂ List.Perm bs bs') :
    ∀ i : Nat, ((bs[i]?).getD []).Perm ((bs'[i]?).getD []) := by
  induction h with
  | nil => intro i; rfl
  | cons hb _ ih =>
    intro i
    cases i with
    | zero => simpa using hb
    | succ j => simpa using ih j

theorem bucketStep_forall₂ {bs bs' : List (List String)}
    (h : List.Forall₂ List.Perm bs bs') (r : String × Int) :
    List.Forall₂ List.Perm (bucketStep bs r) (bucketStep bs' r) := by
  unfold bucketStep
  rw [← h.length_eq]
  cases hi : pyListIndex bs.length r.2 with
  | none => exact h
  | some i => exact forall₂_perm_set h i _ _ ((forall₂_perm_getElem h i).append_right [r.1])

theorem foldl_bucketStep_forall₂ :
    ∀ (regs : List (String × Int)) {bs bs' : List (List String)},
      List.Forall₂ List.Perm bs bs' →
      List.Forall₂ List.Perm (regs.foldl bucketStep bs) (regs.foldl bucketStep bs')
  | [], _, _, h => h
  | _ :: rest, _, _, h => foldl_bucketStep_forall₂ rest (bucketStep_forall₂ h _)

theorem bucketStep_swap (bs : List (List String)) (x y : String × Int) :
    List.Forall₂ List.Perm (bucketStep (bucketStep bs x) y) (bucketStep (bucketStep bs y) x) := by
  rcases hix : pyListIndex bs.length x.2 with _ | ix <;>
    rcases hiy : pyListIndex bs.length y.2 with _ | iy
  · simp only [bucketStep, hix, hiy]
    exact forall₂_perm_refl _
  · simp only [bucketStep, hix, hiy, List.length_set]
    exact forall₂_perm_refl _
  · simp only [bucketStep, hix, hiy, List.length_set]
    exact forall₂_perm_refl _
  · have hxlt := pyListIndex_lt _ _ _ hix
    have hylt := pyListIndex_lt _ _ _ hiy
    by_cases hxy : ix = iy
    · subst hxy
      simp only [bucketStep, hix, hiy, List.length_set]
      rw [List.getElem?_set_self hxlt, List.getElem?_set_self hxlt,
        List.set_set, List.set_set]
      refine forall₂_perm_set (forall₂_perm_refl bs) ix _ _ ?_
      simp only [Option.getD_some, List.append_assoc]
      exact List.Perm.append_left _ (List.Perm.swap _ _ _)
    · simp only [bucketStep, hix, hiy, List.length_set]
      rw [List.getElem?_set_ne hxy, List.getElem?_set_ne (Ne.symm hxy),
        List.set_comm _ _ _ hxy]
      exact forall₂_perm_refl _

theorem foldl_bucketStep_perm {regs regs' : List (String × Int)} (h : regs.Perm regs') :
    ∀ bs : List (List String),
      List.Forall₂ List.Perm (regs.foldl bucketStep bs) (regs'.foldl bucketStep bs) := by
  induction h with
  | nil => intro bs; exact forall₂_perm_refl _
  | cons x _ ih => intro bs; exact ih (bucketStep bs x)
  | swap x y l => intro bs; exact foldl_bucketStep_forall₂ l (bucketStep_swap bs y x)
  | trans _ _ ih1 ih2 => intro bs; exact forall₂_perm_trans (ih1 bs) (ih2 bs)

theorem sortByName_eq_of_perm {l l' : List String} (h : l.Perm l') :
    sortByName l = sortByName l' :=
  List.eq_of_perm_of_sorted
    ((List.perm_insertionSort _ l).trans (h.trans (List.perm_insertionSort _ l').symm))
    (List.sorted_insertionSort _ l) (List.sorted_insertionSort _ l')

theorem map_sortByName_eq {bs bs' : List (List String)}
    (h : List.Forall₂ List.Perm bs bs') : bs.map sortByName = bs'.map sortByName := by
  induction h with
  | nil => rfl
  | cons hb _ ih => rw [List.map_cons, List.map_cons, sortByName_eq_of_perm hb, ih]

theorem registerAll_eq_fold (name : String) (c : Option Nat) :
    ∀ (regs : List (String × Int)) (bs : List (List String)),
      (∀ r ∈ regs, (pyListIndex bs.length r.2).isSome = true) →
      registerAll ⟨[(name, ⟨bs⟩)], c⟩ name regs
        = .ok ⟨[(name, ⟨regs.foldl bucketStep bs⟩)], c⟩
  | [], _, _ => rfl
  | (l, p) :: rest, bs, hval => by
    obtain ⟨i, hi⟩ := Option.isSome_iff_exists.mp (hval (l, p) (by simp))
    have step : (⟨[(name, ⟨bs⟩)], c⟩ : EventManager).register_listener name l p
        = .ok ⟨[(name, ⟨bucketStep bs (l, p)⟩)], c⟩ := by
      simp [EventManager.register_listener, alGet, hi, bucketStep, alSet]
    rw [registerAll, step]
    have hval' : ∀ r ∈ rest, (pyListIndex (bucketStep bs (l, p)).length r.2).isSome = true := by
      intro r hr
      rw [bucketStep_length]
      exact hval r (by simp [hr])
    exact registerAll_eq_fold name c rest (bucketStep bs (l, p)) hval'

theorem registerAll_fresh (name : String) (c : Option Nat) (l : String) (p : Int)
    (rest : List (String × Int)) (i : Nat) (hi : pyListIndex 10 p = some i) :
    registerAll ⟨[], c⟩ name ((l, p) :: rest)
      = registerAll ⟨[(name, ⟨bucketStep (List.replicate 10 []) (l, p)⟩)], c⟩ name rest := by
  rw [registerAll]
  have step : (⟨[], c⟩ : EventManager).register_listener name l p
      = .ok ⟨[(name, ⟨bucketStep (List.replicate 10 []) (l, p)⟩)], c⟩ := by
    unfold EventManager.register_listener bucketStep
    simp [alGet, mkEventChannel, hi, alSet]
  rw [step]

theorem emitAfter_eq (c : Nat) (name : String) (ev : Event) :
    ∀ regs : List (String × Int),
      (∀ r ∈ regs, (pyListIndex 10 r.2).isSome = true) →
      emitAfter c name regs ev
        = .ok ({ ev with time := some c },
            joinAll ((regs.foldl bucketStep (List.replicate 10 [])).map sortByName))
  | [], _ => by
    simp [emitAfter, registerAll, EventManager.emit, EventManager.setup, mkEventManager,
      alGet, mkEventChannel, EventChannel.emitOrder]
  | (l, p) :: rest, hval => by
    obtain ⟨i, hi⟩ := Option.isSome_iff_exists.mp (hval (l, p) (by simp))
    have hval' : ∀ r ∈ rest,
        (pyListIndex (bucketStep (List.replicate 10 []) (l, p)).length r.2).isSome = true := by
      intro r hr
      rw [bucketStep_length]
      simpa using hval r (by simp [hr])
    have h1 := registerAll_fresh name (some c) l p rest i hi
    have h2 := registerAll_eq_fold name (some c) rest
      (bucketStep (List.replicate 10 []) (l, p)) hval'
    simp only [emitAfter, EventManager.setup, mkEventManager, h1, h2,
      EventManager.emit, alGet, if_pos, EventChannel.emitOrder]
    rfl

/-- Claim C3: emission invokes the channel's listeners bucket by bucket in
ascending priority order and, within a bucket, in lexicographic listener-name
order; the resulting invocation sequence is independent of the registration
order (any permutation of any valid registration list yields the same
sequence); in particular, registering L1 `"zzz"` at priority 2, L2 `"aaa"` at
priority 2, and L3 at priority 1 in any order and emitting invokes
`[L3, L2, L1]`. -/
theorem c3_emit_priority_then_name_order (c : Nat) (ev : Event) :
    (∀ (name : String) (regs regs' : List (String × Int)),
      (∀ r ∈ regs, (pyListIndex 10 r.2).isSome = true) → regs.Perm regs' →
      emitAfter c name regs ev = emitAfter c name regs' ev)
    ∧ (∀ (n3 : String) (regs : List (String × Int)),
      regs.Perm [("zzz", 2), ("aaa", 2), (n3, 1)] →
      emitAfter c "evt" regs ev = .ok ({ ev with time := some c }, [n3, "aaa", "zzz"])) := by
  have general : ∀ (name : String) (regs regs' : List (String × Int)),
      (∀ r ∈ regs, (pyListIndex 10 r.2).isSome = true) → regs.Perm regs' →
      emitAfter c name regs ev = emitAfter c name regs' ev := by
    intro name regs regs' hval hperm
    have hval' : ∀ r ∈ regs', (pyListIndex 10 r.2).isSome = true := fun r hr =>
      hval r (hperm.mem_iff.mpr hr)
    rw [emitAfter_eq c name ev regs hval, emitAfter_eq c name ev regs' hval',
      map_sortByName_eq (foldl_bucketStep_perm hperm (List.replicate 10 []))]
  refine ⟨general, fun n3 regs hperm => ?_⟩
  have hval : ∀ r ∈ regs, (pyListIndex 10 r.2).isSome = true := by
    intro r hr
    have hr' := hperm.mem_iff.mp hr
    simp only [List.mem_cons, List.not_mem_nil, or_false] at hr'
    rcases hr' with rfl | rfl | rfl <;> rfl
  rw [general "evt" regs [("zzz", 2), ("aaa", 2), (n3, 1)] hval hperm]
  rfl

/-- Witness for C3: the three listeners registered in a different order than
listed still fire as `[L3, L2, L1]`. -/
theorem c3_emit_priority_then_name_order_witness :
    emitAfter 5 "evt" [("aaa", 2), ("l3", 1), ("zzz", 2)] ⟨none, 0⟩
      = .ok (⟨some 5, 0⟩, ["l3", "aaa", "zzz"]) :=
  (c3_emit_priority_then_name_order 5 ⟨none, 0⟩).2 "l3" _ (by decide)

theorem scanLayers_single (l : String) (p : Option String × α) :
    ∀ (ls : List String) (init : Option String), l ∈ ls →
      ConfigNode.scanLayers [(l, p)] ls init = .ok p
  | x :: rest, init, hmem => by
    by_cases hx : l = x
    · subst hx
      simp [ConfigNode.scanLayers, alGet]
    · have hr : l ∈ rest := by
        rcases List.mem_cons.mp hmem with h | h
        · exact absurd h hx
        · exact h
      simp only [ConfigNode.scanLayers, alGet, if_neg hx]
      exact scanLayers_single l p rest (some x) hr

theorem valueNode_get (ls : List String) (L S : Option String) (a : α)
    (h : resLayer ls L ∈ ls) :
    (valueNode ls L S a).get_value_with_source none = .ok (S, a) :=
  scanLayers_single _ _ ls.reverse none (List.mem_reverse.mpr h)

theorem set_value_mk (ls : List String) (hls : ls ≠ []) (a : α) (L S : Option String) :
    (mkConfigNode ls : ConfigNode α).set_value a L S = .ok (valueNode ls L S a) := by
  have hne : ls.isEmpty = false := by
    cases ls with
    | nil => exact absurd rfl hls
    | cons x xs => rfl
  by_cases hL : strTruthy L = true
  · simp [mkConfigNode, ConfigNode.set_value, hne, hL, valueNode, resLayer, alSet, Except.map]
  · obtain ⟨l, hl⟩ : ∃ l, ls.getLast? = some l :=
      Option.isSome_iff_exists.mp (List.getLast?_isSome.mpr hls)
    simp [mkConfigNode, ConfigNode.set_value, hne, hL, valueNode, resLayer, alSet, hl,
      Except.map]

theorem wfEntries_cons {k : String} {v : ConfigValue α}
    {rest : List (String × ConfigValue α)} (h : wfEntries ((k, v) :: rest) = true) :
    (rest.map (·.1)).contains k = false ∧ wfValue v = true ∧ wfEntries rest = true := by
  simp only [wfEntries, Bool.and_eq_true, Bool.not_eq_true'] at h
  exact ⟨h.1.1, h.1.2, h.2⟩

mutual
theorem swm_fresh :
    ∀ (v : ConfigValue α) (ls : List String) (cs : List (String × Child α))
      (name : String) (L S : Option String), ls ≠ [] → wfValue v = true →
      alGet name cs = none →
      (ConfigTree.mk ls cs false).set_with_metadata name v L S
        = .ok (.mk ls (cs ++ [(name, buildChild ls L S v)]) false)
  | .scalar a, ls, cs, name, L, S, hls, _, habs => by
    simp only [ConfigTree.set_with_metadata, ConfigTree.frozen_mk, Bool.false_eq_true,
      if_false, ConfigTree.children_mk, ConfigTree.layers_mk, habs,
      set_value_mk ls hls a L S, alSet_of_absent name _ cs habs, buildChild]
  | .dict d, ls, cs, name, L, S, hls, hwf, habs => by
    have hbuild := readDict_fresh d ls [] L S hls (by simpa [wfValue] using hwf)
      (fun k _ => rfl)
    have hne : ls.isEmpty = false := by
      cases ls with
      | nil => exact absurd rfl hls
      | cons x xs => rfl
    simp only [ConfigTree.set_with_metadata, ConfigTree.frozen_mk, Bool.false_eq_true,
      if_false, ConfigTree.children_mk, ConfigTree.layers_mk, habs, mkConfigTree, hne,
      Bool.false_eq_true, if_false, hbuild, List.nil_append,
      alSet_of_absent name _ cs habs, buildChild]

theorem readDict_fresh :
    ∀ (d : List (String × ConfigValue α)) (ls : List String)
      (cs : List (String × Child α)) (L S : Option String), ls ≠ [] →
      wfEntries d = true → (∀ k ∈ d.map (·.1), alGet k cs = none) →
      (ConfigTree.mk ls cs false).read_dict d L S
        = .ok (.mk ls (cs ++ buildChildren ls L S d) false)
  | [], ls, cs, L, S, _, _, _ => by
    simp [ConfigTree.read_dict, buildChildren]
  | (k, v) :: rest, ls, cs, L, S, hls, hwf, habs => by
    obtain ⟨hk, hv, hrest⟩ := wfEntries_cons hwf
    have habs_k : alGet k cs = none := habs k (by simp)
    have step := swm_fresh v ls cs k L S hls hv habs_k
    have habs' : ∀ k' ∈ rest.map (·.1), alGet k' (cs ++ [(k, buildChild ls L S v)]) = none := by
      intro k' hk'
      have hknot : k ∉ rest.map (·.1) := by simpa using hk
      have hne : k ≠ k' := fun h => hknot (h ▸ hk')
      rw [alGet_append_left k' cs _ (habs k' (by simp [hk']))]
      simp [alGet, hne]
    have tail := readDict_fresh rest ls (cs ++ [(k, buildChild ls L S v)]) L S hls hrest habs'
    simp only [ConfigTree.read_dict, step, tail, List.append_assoc, List.singleton_append,
      buildChildren]
end

theorem leafPathsEntries_shape :
    ∀ (d : List (String × ConfigValue α)) (p : List String) (a : α),
      (p, a) ∈ leafPathsEntries d → ∃ k q, p = k :: q ∧ k ∈ d.map (·.1)
  | (k, v) :: rest, p, a, h => by
    simp only [leafPathsEntries, List.mem_append, List.mem_map] at h
    rcases h with ⟨⟨q, b⟩, _, heq⟩ | h
    · injection heq with h1 h2
      exact ⟨k, q, h1.symm, by simp⟩
    · obtain ⟨k₂, q, hpe, hk₂⟩ := leafPathsEntries_shape rest p a h
      exact ⟨k₂, q, hpe, by simp [hk₂]⟩

theorem childNode?_cons_ne (ls : List String) (fz : Bool) (e : String × Child α)
    (cs : List (String × Child α)) (k₂ : String) (p' : List String) (h : e.1 ≠ k₂) :
    ConfigTree.childNode? (.mk ls (e :: cs) fz) (k₂ :: p')
      = ConfigTree.childNode? (.mk ls cs fz) (k₂ :: p') := by
  obtain ⟨k₁, c⟩ := e
  cases p' <;> simp_all [ConfigTree.childNode?, alGet]

theorem childNode_build :
    ∀ (d : List (String × ConfigValue α)) (ls : List String) (L S : Option String)
      (path : List String) (a : α), wfEntries d = true →
      (path, a) ∈ leafPathsEntries d →
      ConfigTree.childNode? (.mk ls (buildChildren ls L S d) false) path
        = some (valueNode ls L S a)
  | (k, v) :: rest, ls, L, S, path, a, hwf, hmem => by
    obtain ⟨hk, hv, hrest⟩ := wfEntries_cons hwf
    have hmem' := hmem
    simp only [leafPathsEntries, List.mem_append, List.mem_map] at hmem'
    rcases hmem' with ⟨⟨q, b⟩, hq, heq⟩ | hmem'
    · injection heq with h1 h2
      have h2' : a = b := h2.symm
      have h1' : k :: q = path := h1
      subst h2'
      subst h1'
      cases v with
      | scalar c =>
        simp only [leafPaths, List.mem_singleton] at hq
        injection hq with hq1 hq2
        subst hq1
        subst hq2
        simp [ConfigTree.childNode?, buildChildren, buildChild, alGet]
      | dict d' =>
        have hq' : (q, a) ∈ leafPathsEntries d' := by simpa [leafPaths] using hq
        obtain ⟨k₂, q', rfl, _⟩ := leafPathsEntries_shape d' q a hq'
        have ih := childNode_build d' ls L S (k₂ :: q') a (by simpa [wfValue] using hv) hq'
        simpa [buildChildren, buildChild, ConfigTree.childNode?, alGet] using ih
    · obtain ⟨k₂, q, rfl, hk₂⟩ := leafPathsEntries_shape rest path a hmem'
      have hne : (k, buildChild ls L S v).1 ≠ k₂ := by
        have hknot : k ∉ rest.map (·.1) := by simpa using hk
        intro h
        exact hknot ((show k = k₂ from h) ▸ hk₂)
      rw [buildChildren, childNode?_cons_ne ls false _ _ k₂ q hne]
      exact childNode_build rest ls L S (k₂ :: q) a hrest hmem'

theorem readPathS_of_childNode :
    ∀ (path : List String) (t : ConfigTree α) (n : ConfigNode α) (p : Option String × α),
      t.childNode? path = some n → n.get_value_with_source none = .ok p →
      t.readPathS path = .ok (.value p.2, t)
  | [], t, n, p, hc, _ => by simp [ConfigTree.childNode?] at hc
  | [k], t, n, p, hc, hg => by
    rcases halg : alGet k t.children with _ | c
    · simp [ConfigTree.childNode?, halg] at hc
    · cases c with
      | node n' =>
        obtain rfl : n' = n := by simpa [ConfigTree.childNode?, halg] using hc
        simp [ConfigTree.readPathS, ConfigTree.get_from_layer, halg,
          ConfigNode.get_value, hg, Except.map]
      | tree c' =>
        simp [ConfigTree.childNode?, halg] at hc
  | k :: q :: qs, t, n, p, hc, hg => by
    obtain ⟨ls, cs, fz⟩ := t
    rcases halg : alGet k cs with _ | c
    · simp [ConfigTree.childNode?, halg] at hc
    · cases c with
      | node n' => simp [ConfigTree.childNode?, halg] at hc
      | tree c' =>
        have hc' : c'.childNode? (q :: qs) = some n := by
          simpa [ConfigTree.childNode?, halg] using hc
        have ih := readPathS_of_childNode (q :: qs) c' n p hc' hg
        have hset := alSet_self k (Child.tree c') cs halg
        have hgf : (ConfigTree.mk ls cs fz : ConfigTree α).get_from_layer k none
            = .ok (.subtree c', .mk ls cs fz) := by
          simp [ConfigTree.get_from_layer, halg]
        rw [ConfigTree.readPathS.eq_def]
        simp only [hgf, ih, hset, ConfigTree.layers_mk, ConfigTree.children_mk,
          ConfigTree.frozen_mk]

/-- Claim C7: round trip — writing any nested mapping with unique keys and
scalar leaves into a fresh unfrozen tree via `read_dict(mapping, layer,
source)` succeeds whenever the chosen layer resolves (a truthy layer must be
among the declared layers; a falsy one falls back to the last declared
layer), and then reading each leaf path yields the original scalar, while
`get_value_with_source` on the leaf node reports the passed source. -/
theorem c7_read_dict_round_trip (layers0 : List String)
    (d : List (String × ConfigValue α)) (L S : Option String)
    (hwf : wfEntries d = true)
    (hL : strTruthy L = true → L.getD "" ∈ (if layers0.isEmpty then ["base"] else layers0)) :
    ∃ t : ConfigTree α, (mkConfigTree layers0 : ConfigTree α).read_dict d L S = .ok t ∧
      ∀ path a, (path, a) ∈ leafPathsEntries d →
        t.readPathS path = .ok (.value a, t)
        ∧ ∃ n, t.childNode? path = some n ∧ n.get_value_with_source none = .ok (S, a) := by
  rw [show (mkConfigTree layers0 : ConfigTree α)
      = .mk (if layers0.isEmpty then ["base"] else layers0) [] false from rfl]
  have hls0 : (if layers0.isEmpty then ["base"] else layers0) ≠ [] := by
    cases layers0 <;> simp
  generalize hg : (if layers0.isEmpty then ["base"] else layers0) = ls at hL hls0 ⊢
  have hres : resLayer ls L ∈ ls := by
    by_cases hT : strTruthy L = true
    · simpa [resLayer, hT] using hL hT
    · have hT' : strTruthy L = false := by simpa using hT
      simp only [resLayer, hT', Bool.false_eq_true, if_false,
        List.getLast?_eq_getLast_of_ne_nil hls0, Option.getD_some]
      exact List.getLast_mem hls0
  refine ⟨.mk ls (buildChildren ls L S d) false,
    by simpa using readDict_fresh d ls [] L S hls0 hwf (fun k _ => rfl), ?_⟩
  intro path a hmem
  have hcn := childNode_build d ls L S path a hwf hmem
  have hgv := valueNode_get ls L S a hres
  exact ⟨readPathS_of_childNode path _ _ _ hcn hgv, _, hcn, hgv⟩

/-- Witness for C7: the mapping `{a: {b: 5}, c: 6}` written at layer
`"base"` from source `"cfg"` reads back `5` at `a.b` and `6` at `c`, with the
source reported. -/
theorem c7_read_dict_round_trip_witness :
    ((mkConfigTree ["base", "override"] : ConfigTree Int).read_dict
        [("a", .dict [("b", .scalar 5)]), ("c", .scalar 6)] (some "base") (some "cfg"))
      = .ok c7T
    ∧ c7T.readPathS ["a", "b"] = .ok (.value 5, c7T)
    ∧ c7T.readPathS ["c"] = .ok (.value 6, c7T)
    ∧ ∃ n, c7T.childNode? ["a", "b"] = some n
        ∧ n.get_value_with_source none = .ok (some "cfg", 5) := by
  obtain ⟨t, h1, h2⟩ := c7_read_dict_round_trip ["base", "override"]
    ([("a", .dict [("b", .scalar 5)]), ("c", .scalar 6)] : List (String × ConfigValue Int))
    (some "base") (some "cfg") rfl (fun _ => by decide)
  have hcomp : (mkConfigTree ["base", "override"] : ConfigTree Int).read_dict
      [("a", .dict [("b", .scalar 5)]), ("c", .scalar 6)] (some "base") (some "cfg")
      = .ok c7T := rfl
  have ht : t = c7T := (Except.ok.inj (hcomp.symm.trans h1)).symm
  subst ht
  exact ⟨h1, (h2 ["a", "b"] 5 (by decide)).1, (h2 ["c"] 6 (by decide)).1,
    (h2 ["a", "b"] 5 (by decide)).2⟩

/-- Witness for C10 at priorities 3, 11, -1 and -11. -/
theorem c10_priority_indexing_witness :
    mkEventManager.register_listener "e" "l" 3
        = .ok ⟨[("e", ⟨(List.replicate 10 []).set 3 ["l"]⟩)], none⟩
    ∧ mkEventManager.register_listener "e" "l" 11 = .error .indexError
    ∧ mkEventManager.register_listener "e" "l" (-1)
        = .ok ⟨[("e", ⟨(List.replicate 10 []).set 9 ["l"]⟩)], none⟩
    ∧ mkEventManager.register_listener "e" "l" (-11) = .error .indexError := by
  refine ⟨?_, ?_, ?_, ?_⟩
  · exact (c10_priority_indexing 3 "e" "l").1 (by decide) (by decide)
  · exact (c10_priority_indexing 11 "e" "l").2.1 (by decide)
  · exact ((c10_priority_indexing (-1) "e" "l").2.2.1 (by decide) (by decide)).trans (by rfl)
  · exact (c10_priority_indexing (-11) "e" "l").2.2.2 (by decide)

end Ceam
